import Mathlib

/-!
# Verification of the spateo CCI effects modeling downstream analysis

Shallow embedding of `spateo/tools/CCI_effects_modeling/MuSIC_downstream.py`
(class `MuSIC_Interpreter`): the observation chunking set up in `__init__`,
`compute_coeff_significance`, `get_effect_potential`, `get_pathway_potential`,
`inferred_effect_direction` and `define_effect_vf`.

Conventions used throughout:
* numpy/pandas float matrices are embedded as functions into `ℚ`;
* a float value that numpy would turn into `NaN` (division `0/0` during
  min-max normalization) is embedded as `none : Option ℚ`, a finite value
  `x` as `some x`;
* a sparse matrix of shape `[n_samples, n_samples]` is a total function
  `Fin (n+1) → Fin (n+1) → ℚ` (explicit zeros and absent entries are both
  `0`; `eliminate_zeros` calls are therefore identities in the embedding);
* a raised Python `ValueError` is `Except.error` with the message text;
* library functions external to the repository (sklearn `normalize`, the
  reference distribution inside the Wald test, `multitesting_correction`)
  enter as explicit function parameters.
-/

/-- numpy elementwise division `a / b` where the only occurrence of a zero
denominator in the modeled code paths is `0 / 0`, which numpy evaluates to
`NaN` (modeled as `none`). -/
def divOpt (a b : ℚ) : Option ℚ := if b = 0 then none else some (a / b)

/-- Embeds `np.where(x > 0, 1, -1)`: the sign convention used for the summed effect
potential (zero gets sign `-1`). -/
def npSign (x : ℚ) : ℚ := if 0 < x then 1 else -1

/-- Embeds `np.min` over a vector indexed by the (nonempty) cell range. -/
def vmin {n : ℕ} (v : Fin (n + 1) → ℚ) : ℚ :=
  Finset.univ.inf' Finset.univ_nonempty v

/-- Embeds `np.max` over a vector indexed by the (nonempty) cell range. -/
def vmax {n : ℕ} (v : Fin (n + 1) → ℚ) : ℚ :=
  Finset.univ.sup' Finset.univ_nonempty v

/-- Min-max normalization with the sign of the raw value reapplied, exactly as
in `get_effect_potential` (MuSIC_downstream.py lines 1124-1140): take absolute
values, scale by `(a - min) / (max - min)`, multiply by the sign of the raw
sum.  When every absolute value equals the minimum and the maximum (in
particular when every sum is zero) the division is `0 / 0`, i.e. `NaN`. -/
def signedMinMax {n : ℕ} (sums : Fin (n + 1) → ℚ) (i : Fin (n + 1)) : Option ℚ :=
  (divOpt (|sums i| - vmin (fun j => |sums j|))
      (vmax (fun j => |sums j|) - vmin (fun j => |sums j|))).map
    (fun x => x * npSign (sums i))

/-- Inputs to `get_effect_potential` for a `ligand` or `lr` model, after the
ligand / receptor / target selection has resolved: the spatial weight matrix
chosen for the ligand class, the (non-lagged) ligand expression column, the
receptor expression row (present exactly when `mod_type == "lr"`), the fitted
coefficient column for the selected interaction, and the target gene
expression. -/
structure EffectInput (n : ℕ) where
  weights : Fin (n + 1) → Fin (n + 1) → ℚ
  ligandExpr : Fin (n + 1) → ℚ
  receptorExpr : Option (Fin (n + 1) → ℚ)
  coeff : Fin (n + 1) → ℚ
  targetExpr : Fin (n + 1) → ℚ

/-- Embeds `coeffs[coeffs.abs() < 1e-2] = 0` (line 1015): coefficients of magnitude
below `1e-2` are treated as exactly zero. -/
def thresholdCoeff (c : ℚ) : ℚ := if |c| < 1 / 100 then 0 else c

/-- Embeds `target_indicator = np.where(target_expr != 0, 1, 0)` (line 1019). -/
def targetIndicator (t : ℚ) : ℚ := if t ≠ 0 then 1 else 0

/-- Embeds `sent_potential = spatial_weights.multiply(ligand_expr)` with, for `lr`
models, the further `.multiply(receptor_expr)` (lines 1062-1069): row `i` is
scaled by sender `i`'s ligand expression and, when present, column `j` by
receiver `j`'s receptor expression. -/
def sent_potential {n : ℕ} (inp : EffectInput n) (i j : Fin (n + 1)) : ℚ :=
  inp.weights i j * inp.ligandExpr i *
    (match inp.receptorExpr with
     | some r => r j
     | none => 1)

/-- Embeds `sig_interm = sent_potential.multiply(coeff)` followed by
`effect_potential = sig_interm.multiply(target_indicator)` (lines 1083-1086):
column `j` is scaled by the (thresholded) coefficient at receiver `j` and by
the indicator of nonzero target expression at receiver `j`. -/
def effect_potential {n : ℕ} (inp : EffectInput n) (i j : Fin (n + 1)) : ℚ :=
  sent_potential inp i j * thresholdCoeff (inp.coeff j) *
    targetIndicator (inp.targetExpr j)

/-- Embeds `effect_potential.sum(axis=1)` (line 1124): total potential sent by cell `i`. -/
def effect_potential_sum_sender {n : ℕ} (inp : EffectInput n) (i : Fin (n + 1)) : ℚ :=
  ∑ j, effect_potential inp i j

/-- Embeds `effect_potential.sum(axis=0)` (line 1133): total potential received by cell `j`. -/
def effect_potential_sum_receiver {n : ℕ} (inp : EffectInput n) (j : Fin (n + 1)) : ℚ :=
  ∑ i, effect_potential inp i j

/-- Embeds `normalized_effect_potential_sum_sender` (lines 1124-1131). -/
def normalized_sum_sender {n : ℕ} (inp : EffectInput n) (i : Fin (n + 1)) : Option ℚ :=
  signedMinMax (effect_potential_sum_sender inp) i

/-- Embeds `normalized_effect_potential_sum_receiver` (lines 1133-1140). -/
def normalized_sum_receiver {n : ℕ} (inp : EffectInput n) (j : Fin (n + 1)) : Option ℚ :=
  signedMinMax (effect_potential_sum_receiver inp) j

/-- A concrete `get_effect_potential` input on two cells whose target gene is
expressed in no cell, so that every entry of the effect potential matrix is
zero. -/
def zeroTargetInput : EffectInput 1 where
  weights := fun _ _ => 1
  ligandExpr := fun _ => 1
  receptorExpr := none
  coeff := fun _ => 1
  targetExpr := fun _ => 0

-- ---------------------------------------------------------------------------
-- Vector field construction: `define_effect_vf` (lines 1513-1592)
-- ---------------------------------------------------------------------------

/-- Embeds `np.clip(x, lo, hi)`: the upper bound takes precedence. -/
def npClip (lo hi x : ℚ) : ℚ := min (max x lo) hi

/-- Componentwise vector subtraction `coords[idx, :] - coords[i, :]`. -/
def vsub (a b : List ℚ) : List ℚ := List.zipWith (fun x y => x - y) a b

/-- Componentwise vector addition (used to accumulate `np.sum(..., axis=0)`). -/
def vadd (a b : List ℚ) : List ℚ := List.zipWith (fun x y => x + y) a b

/-- Scaling a vector by a scalar (`temp_v * temp_val.reshape(-1, 1)`). -/
def vscale (c : ℚ) (v : List ℚ) : List ℚ := v.map (fun x => c * x)

/-- Insertion step for sorting (index, value) pairs by decreasing value. -/
def insertDesc (p : ℕ × ℚ) : List (ℕ × ℚ) → List (ℕ × ℚ)
  | [] => [p]
  | q :: qs => if q.2 ≤ p.2 then p :: q :: qs else q :: insertDesc p qs

/-- Sort (index, value) pairs by decreasing value: `np.argsort(-data_np)`
applied jointly to `rows[i]` and `data[i]` (the tie order of `np.argsort` is
unspecified, as is this one's). -/
def sortDesc : List (ℕ × ℚ) → List (ℕ × ℚ)
  | [] => []
  | p :: ps => insertDesc p (sortDesc ps)

/-- Lines 1542-1549: keep the whole stored row when it has at most `k`
entries, otherwise the `k` entries of largest value. -/
def selectNeighbors (k : ℕ) (row : List (ℕ × ℚ)) : List (ℕ × ℚ) :=
  if row.length ≤ k then row else (sortDesc row).take k

/-- Embeds `np.sum(temp_v * temp_val.reshape(-1, 1), axis=0)` where each row of
`temp_v` is the l2-normalized direction from cell `i` to a neighbor
(lines 1555-1557).  The sklearn row normalization is external to the
repository and enters as the parameter `l2row`. -/
def weightedDirSum (l2row : List ℚ → List ℚ) (coords : ℕ → List ℚ) (d i : ℕ)
    (nbrs : List (ℕ × ℚ)) : List ℚ :=
  nbrs.foldr (fun p acc => vadd (vscale p.2 (l2row (vsub (coords p.1) (coords i)))) acc)
    (List.replicate d 0)

/-- One row of the sending (resp. receiving) vector field before clipping
(lines 1541-1559): rows with no stored entries are skipped by `continue`,
leaving the `np.zeros_like` initialization; a single neighbor contributes its
raw coordinate difference; several neighbors contribute the potential-weighted
sum of their unit directions; the result is renormalized and scaled by the
cell's normalized potential sum. -/
def vfRow (l2row : List ℚ → List ℚ) (coords : ℕ → List ℚ) (d k i : ℕ)
    (row : List (ℕ × ℚ)) (score : ℚ) : List ℚ :=
  match selectNeighbors k row with
  | [] => List.replicate d 0
  | [p] => (l2row (vsub (coords p.1) (coords i))).map (fun c => c * score)
  | nbrs => (l2row (weightedDirSum l2row coords d i nbrs)).map (fun c => c * score)

/-- One row of the final vector field: `np.clip(vf, -max_val, max_val)`
(lines 1560 and 1583) applied componentwise. -/
def vfRowClipped (l2row : List ℚ → List ℚ) (coords : ℕ → List ℚ) (d k i : ℕ)
    (row : List (ℕ × ℚ)) (score maxVal : ℚ) : List ℚ :=
  (vfRow l2row coords d k i row score).map (npClip (-maxVal) maxVal)

-- ---------------------------------------------------------------------------
-- Worker chunking (`__init__`, lines 93-95) and `compute_coeff_significance`
-- (lines 120-198)
-- ---------------------------------------------------------------------------

/-- Embeds `chunk_size = int(math.ceil(float(len(range(self.n_samples))) / self.comm.size))`
(line 93): the ceiling of `N / W`. -/
def chunkSize (N W : ℕ) : ℕ := (N + W - 1) / W

/-- Embeds `self.x_chunk = np.arange(self.n_samples)[self.comm.rank * chunk_size :
(self.comm.rank + 1) * chunk_size]` (line 94): the slice of the observation
indices owned by worker `r`. -/
def xChunk (N W r : ℕ) : List ℕ :=
  ((List.range N).drop (r * chunkSize N W)).take (chunkSize N W)

/-- Per-observation coefficient and standard-error data consumed by
`compute_coeff_significance` for one target: the coefficient and standard
error of feature `j` at observation `i`, and whether feature `j` has a
matching `se_` column (`self.feature_names[j] in se_feature_match`,
line 166). -/
structure SigInput where
  coef : ℕ → ℕ → ℚ
  se : ℕ → ℕ → ℚ
  hasSE : ℕ → Bool

/-- Modelled from the spec: `wald_test` lives in
`CCI_effects_modeling/regression_utils.py`, which is not under `src/`.  Per
the spec it computes "a two-sided Wald statistic `z = coef[i,j] / se[i,j]`
and its p-value from the standard normal (or chosen reference) distribution";
the chosen reference distribution's two-sided tail function is the
parameter `ref`. -/
def wald_test (ref : ℚ → ℚ) (coef se : ℚ) : ℚ := ref (coef / se)

/-- Lines 163-175, body of the double loop: `se == 0` (or a feature with no
matching `se_` column) yields p-value `1`, otherwise `wald_test` is called. -/
def pValue (ref : ℚ → ℚ) (inp : SigInput) (i j : ℕ) : ℚ :=
  if inp.hasSE j then
    if inp.se i j = 0 then 1 else wald_test ref (inp.coef i j) (inp.se i j)
  else 1

/-- The row of p-values for observation `i` over the `F` features. -/
def pValueRow (ref : ℚ → ℚ) (inp : SigInput) (F i : ℕ) : List ℚ :=
  (List.range F).map (pValue ref inp i)

/-- Embeds `local_p_values_all` (lines 161-175): the block of p-value rows computed
by one worker for its chunk of observations. -/
def localPValues (ref : ℚ → ℚ) (inp : SigInput) (F : ℕ) (chunk : List ℕ) :
    List (List ℚ) :=
  chunk.map (pValueRow ref inp F)

/-- Embeds `p_values_all = np.concatenate(self.comm.gather(local_p_values_all, root=0),
axis=0)` (lines 178-181): the per-worker blocks concatenated in rank order. -/
def pValuesAll (ref : ℚ → ℚ) (inp : SigInput) (N F W : ℕ) : List (List ℚ) :=
  ((List.range W).map (fun r => localPValues ref inp F (xChunk N W r))).flatten

/-- Lines 184-188: `for i in range(p_values_all.shape[0]): qvals[i, :] =
multitesting_correction(p_values_all[i, :], method=method, alpha=...)` —
the correction (code under `CCI_effects_modeling/regression_utils.py`, not
under `src/`) is an arbitrary function `correction` of one p-value row, with
the method and alpha already applied. -/
def qValues (correction : List ℚ → List ℚ) (pm : List (List ℚ)) : List (List ℚ) :=
  pm.map correction

/-- Line 192: `is_significant_df = q_values_df < significance_threshold`,
the strict elementwise comparison of the q-value dataframe with alpha. -/
def isSignificantMat (alpha : ℚ) (qm : List (List ℚ)) : List (List Bool) :=
  qm.map (fun row => row.map (fun q => decide (q < alpha)))

/-- Entry `(i, j)` of a matrix stored as a list of rows. -/
def entry? (m : List (List α)) (i j : ℕ) : Option α :=
  (m[i]?).bind (fun row => row[j]?)

/-- A concrete significance-test input on which the witnesses below evaluate
the pipeline: two features, the second with standard error zero at every
observation. -/
def sigInputEx : SigInput where
  coef := fun i j => (i : ℚ) + j + 1
  se := fun _ j => if j = 0 then 2 else 0
  hasSE := fun _ => true

-- ---------------------------------------------------------------------------
-- `get_pathway_potential` (lines 1192-1330) and `inferred_effect_direction`
-- entry guard (lines 1351-1354)
-- ---------------------------------------------------------------------------

/-- String literals from the source, named so they can appear in code positions. -/
def emptyStr : String := ""

/-- The separator of `col.split(":")` (line 1254). -/
def colonStr : String := ":"

/-- Pathway name used by the concrete models below. -/
def strP : String := "P"

/-- Target name used by the concrete models below. -/
def strT : String := "T"

/-- An arbitrary explicit argument used by the witnesses below. -/
def strX : String := "X"

/-- The `mod_type` strings tested by the source. -/
def strLR : String := "lr"

/-- The `mod_type` string accepted by `inferred_effect_direction`. -/
def strLigand : String := "ligand"

/-- One row of the ligand-receptor database `self.lr_db`, restricted to the
columns consumed by `get_pathway_potential`. -/
structure LRRow where
  lrFrom : String
  lrTo : String
  lrPathway : String

/-- The model state read by `get_pathway_potential`: the model type string,
the downstream pathway/target attributes, the target keys of `self.coeffs`,
the database, the design matrix column names, and the effect-potential
computation `self.get_effect_potential` (ligand, optional receptor, target ↦
sparse effect matrix), abstracted since only the aggregation logic is under
scrutiny here. -/
structure PathwayModel (n : ℕ) where
  mod_type : String
  pathway_for_downstream : Option String
  target_for_downstream : Option String
  coeffs_keys : List String
  lr_db : List LRRow
  design_matrix_cols : List String
  effect : String → Option String → String → Fin (n + 1) → Fin (n + 1) → ℚ

/-- Lines 1230-1234: a `target` argument that is not `None` falls into the
`else` branch and is replaced by the first key of `self.coeffs`; only when it
is `None` and `self.target_for_downstream` is set is the latter used. -/
def resolveTarget {n : ℕ} (m : PathwayModel n) (target : Option String) : String :=
  match target, m.target_for_downstream with
  | none, some td => td
  | _, _ => m.coeffs_keys.headD emptyStr

/-- Line 1225 error message. -/
def noLigandMsg : String :=
  "Cannot compute pathway effect potential, since fitted model does not use ligands."

/-- Line 1239 error message. -/
def mustProvidePathwayMsg : String := "Must provide pathway to analyze."

/-- Lines 1259-1263 error message. -/
def lrMin3Msg (pathway : String) : String :=
  "Pathway effect potential computation for pathway " ++ pathway ++
    " is unsuitable for this model, since there are fewer than three valid " ++
    "ligand-receptor pairs in the pathway that were incorporated in the initial model."

/-- Embeds `list(set(lr_db_subset["to"]))` for the rows of the named pathway
(lines 1241-1242). -/
def allReceivers {n : ℕ} (m : PathwayModel n) (pathway : String) : List String :=
  (((m.lr_db.filter (fun r => r.lrPathway = pathway)).map (fun r => r.lrTo))).eraseDups

/-- Embeds `list(set(lr_db_subset["from"]))` (lines 1241-1243). -/
def allSenders {n : ℕ} (m : PathwayModel n) (pathway : String) : List String :=
  (((m.lr_db.filter (fun r => r.lrPathway = pathway)).map (fun r => r.lrFrom))).eraseDups

/-- Lines 1252-1256: the design-matrix columns `"ligand:receptor"` whose
receptor part belongs to the pathway (`parts = col.split(":"); if parts[1] in
all_receivers`).  Every column of an `lr` design matrix contains `":"`; a
column without one would make the Python code raise `IndexError`, and is
treated as non-matching here (the theorems below assume well-formed columns). -/
def validLRCombos (cols receivers : List String) : List (String × String) :=
  (cols.filter (fun col =>
      match (col.splitOn colonStr)[1]? with
      | some p => receivers.contains p
      | none => false)).map
    (fun col => ((col.splitOn colonStr).headD emptyStr, (col.splitOn colonStr).getD 1 emptyStr))

/-- The failure at `pathway_sum_potential.sum(axis=1)` when no member effect
was computed (`pathway_sum_potential` stays `None`, lines 1297-1305). -/
def attrErrMsg : String := "AttributeError: NoneType has no attribute sum"

/-- Embeds `pathway_sum_potential` (lines 1297-1302): elementwise sum of the member
effect potentials, starting from the first member. -/
def sumEffects {n : ℕ} (effects : List (Fin (n + 1) → Fin (n + 1) → ℚ))
    (i j : Fin (n + 1)) : ℚ :=
  (effects.map (fun e => e i j)).sum

/-- Plain min-max normalization used for the pathway sums (lines 1305-1313):
unlike `get_effect_potential` there is no absolute value and no sign
reapplication, and again no guard for `max == min` (numpy `0/0` is `NaN`,
modeled as `none`). -/
def pathwayScore {n : ℕ} (sums : Fin (n + 1) → ℚ) (i : Fin (n + 1)) : Option ℚ :=
  divOpt (sums i - vmin sums) (vmax sums - vmin sums)

/-- The value returned by `get_pathway_potential`: the summed potential
matrix and the normalized sender and receiver score vectors. -/
structure PathwayResult (n : ℕ) where
  potential : Fin (n + 1) → Fin (n + 1) → ℚ
  senderScore : Fin (n + 1) → Option ℚ
  receiverScore : Fin (n + 1) → Option ℚ

/-- Final aggregation of the member effect potentials (lines 1297-1313). -/
def pathwayFinish {n : ℕ} (effects : List (Fin (n + 1) → Fin (n + 1) → ℚ)) :
    PathwayResult n :=
  { potential := sumEffects effects
    senderScore := pathwayScore (fun i => ∑ j, sumEffects effects i j)
    receiverScore := pathwayScore (fun j => ∑ i, sumEffects effects i j) }

/-- Embeds `get_pathway_potential` (lines 1192-1330), embedded with its exact
control flow: the `mod_type` guard (lines 1224-1225); the `target` resolution
(lines 1230-1234); the `pathway` guard (lines 1236-1239), which raises unless
the `pathway` argument is `None` and `self.pathway_for_downstream` is set;
then for `lr` models the `< 3` check on the matched ligand-receptor
combinations (lines 1258-1263) followed by the member effect computations,
while for `ligand` models the member effect computations run with no such
check (lines 1284-1294).  An empty member list leaves
`pathway_sum_potential = None` and the Python code fails at
`pathway_sum_potential.sum(axis=1)`; that failure is the distinguished
`AttributeError` below. -/
def get_pathway_potential {n : ℕ} (m : PathwayModel n)
    (pathway target : Option String) : Except String (PathwayResult n) :=
  if m.mod_type ≠ "lr" ∧ m.mod_type ≠ "ligand" then .error noLigandMsg
  else
    let tgt := resolveTarget m target
    match pathway, m.pathway_for_downstream with
    | none, some pw =>
      if m.mod_type = "lr" then
        let combos := validLRCombos m.design_matrix_cols (allReceivers m pw)
        if combos.length < 3 then .error (lrMin3Msg pw)
        else
          let effects := combos.map (fun c => m.effect c.1 (some c.2) tgt)
          if effects.isEmpty then .error attrErrMsg
          else .ok (pathwayFinish effects)
      else
        let effects := (allSenders m pw).map (fun l => m.effect l none tgt)
        if effects.isEmpty then .error attrErrMsg
        else .ok (pathwayFinish effects)
    | _, _ => .error mustProvidePathwayMsg

/-- A concrete `ligand`-model instance whose downstream pathway "P" has only
two member interactions in the database. -/
def ligandModelEx : PathwayModel 0 where
  mod_type := "ligand"
  pathway_for_downstream := some strP
  target_for_downstream := some strT
  coeffs_keys := [strT]
  lr_db := [{ lrFrom := "L1", lrTo := "R1", lrPathway := strP },
    { lrFrom := "L2", lrTo := "R2", lrPathway := strP }]
  design_matrix_cols := []
  effect := fun _ _ _ _ _ => 1

/-- A concrete `lr`-model instance whose downstream pathway "P" matches only
two design-matrix columns. -/
def lrModelEx : PathwayModel 0 where
  mod_type := "lr"
  pathway_for_downstream := some strP
  target_for_downstream := some strT
  coeffs_keys := [strT]
  lr_db := [{ lrFrom := "L1", lrTo := "R1", lrPathway := strP },
    { lrFrom := "L2", lrTo := "R2", lrPathway := strP }]
  design_matrix_cols := ["L1:R1", "L2:R2"]
  effect := fun _ _ _ _ _ => 1

/-- Line 1353 error message. -/
def directionMsg : String :=
  "Direction of effect can only be inferred if ligand expression is used as part of the model."

/-- Entry of `inferred_effect_direction` (lines 1332-1354): the guard
`if not self.mod_type == "ligand" or self.mod_type == "lr"` raises before
anything else runs; the remainder of the function (spatial weight
loading, effect potential and vector field computation) is the continuation
`rest`, invoked only when the guard passes. -/
def inferred_effect_direction {α : Type} (mod_type : String) (rest : Unit → α) :
    Except String α :=
  if ¬ mod_type = "ligand" ∨ mod_type = "lr" then .error directionMsg
  else .ok (rest ())

-- ---------------------------------------------------------------------------
-- Theorems
-- ---------------------------------------------------------------------------

theorem signedMinMax_all_zero {n : ℕ} (sums : Fin (n + 1) → ℚ)
    (h : ∀ i, sums i = 0) (i : Fin (n + 1)) : signedMinMax sums i = none := by
  simp [signedMinMax, divOpt, vmin, vmax, h]

/-- C1 (evaluation at the failing input): the min-max normalization of
`get_effect_potential` (lines 1124-1140) has no guard for the degenerate
all-zero case.  On a two-cell input whose target gene is expressed nowhere
the effect-potential matrix is identically zero, every row and column sum is
`0`, `np.max - np.min = 0`, and numpy evaluates `(0 - 0) / (0 - 0)` to `NaN`
(modeled `none`) — not to the score `0` that the claim (and the function's
own docstring, "normalized between 0 and 1") requires. -/
theorem zeroTarget_scores_nan :
    (normalized_sum_sender zeroTargetInput 0 = none ∧
      normalized_sum_sender zeroTargetInput 1 = none) ∧
      (normalized_sum_receiver zeroTargetInput 0 = none ∧
        normalized_sum_receiver zeroTargetInput 1 = none) := by
  have hep : ∀ i j, effect_potential zeroTargetInput i j = 0 := by
    intro i j
    simp [effect_potential, targetIndicator, zeroTargetInput]
  have hs : ∀ i, effect_potential_sum_sender zeroTargetInput i = 0 := by
    intro i
    simp [effect_potential_sum_sender, hep]
  have hr : ∀ j, effect_potential_sum_receiver zeroTargetInput j = 0 := by
    intro j
    simp [effect_potential_sum_receiver, hep]
  exact ⟨⟨signedMinMax_all_zero _ hs 0, signedMinMax_all_zero _ hs 1⟩,
    signedMinMax_all_zero _ hr 0, signedMinMax_all_zero _ hr 1⟩

-- ---------------------------------------------------------------------------
-- Chunking lemmas
-- ---------------------------------------------------------------------------

theorem range1_take : ∀ (n m s : ℕ), (List.range' s n).take m = List.range' s (min m n) := by
  intro n
  induction n with
  | zero => intro m s; simp
  | succ n ih =>
    intro m s
    cases m with
    | zero => simp
    | succ m =>
      rw [List.range'_succ, List.take_succ_cons, ih m (s + 1), Nat.succ_min_succ,
        List.range'_succ]

theorem range1_drop : ∀ (m n s : ℕ), (List.range' s n).drop m = List.range' (s + m) (n - m) := by
  intro m
  induction m with
  | zero => intro n s; simp
  | succ m ih =>
    intro n s
    cases n with
    | zero => simp
    | succ n =>
      rw [List.range'_succ, List.drop_succ_cons, ih n (s + 1), Nat.succ_sub_succ]
      congr 1
      omega

theorem xChunk_eq (N W r : ℕ) :
    xChunk N W r =
      List.range' (r * chunkSize N W) (min (chunkSize N W) (N - r * chunkSize N W)) := by
  unfold xChunk
  rw [List.range_eq_range', range1_drop, range1_take, Nat.zero_add]

theorem xChunk_mem (N W r x : ℕ) :
    x ∈ xChunk N W r ↔
      r * chunkSize N W ≤ x ∧ x < min ((r + 1) * chunkSize N W) N := by
  rw [xChunk_eq, List.mem_range'_1]
  have h : (r + 1) * chunkSize N W = r * chunkSize N W + chunkSize N W := by ring
  omega

theorem chunks_flatten (l : List ℕ) (cs : ℕ) :
    ∀ W, ((List.range W).map (fun r => (l.drop (r * cs)).take cs)).flatten =
      l.take (W * cs) := by
  intro W
  induction W with
  | zero => simp
  | succ W ih =>
    rw [List.range_succ, List.map_append, List.flatten_append, ih, Nat.succ_mul,
      List.take_add]
    simp

theorem le_mul_chunkSize (N W : ℕ) (hW : 0 < W) : N ≤ W * chunkSize N W := by
  unfold chunkSize
  have h1 := Nat.div_add_mod (N + W - 1) W
  have h2 := Nat.mod_lt (N + W - 1) hW
  set t := W * ((N + W - 1) / W) with ht
  omega

theorem xChunk_cover (N W : ℕ) (hW : 0 < W) :
    ((List.range W).map (xChunk N W)).flatten = List.range N := by
  have h1 : ((List.range W).map (xChunk N W)).flatten =
      (List.range N).take (W * chunkSize N W) := by
    simpa [xChunk] using chunks_flatten (List.range N) (chunkSize N W) W
  rw [h1, List.take_range]
  congr 1
  have h2 := le_mul_chunkSize N W hW
  omega

theorem xChunk_full_before_last (N W r s : ℕ) (hrs : r < s) (hne : xChunk N W s ≠ []) :
    (xChunk N W r).length = chunkSize N W := by
  have hlen : (xChunk N W s).length = min (chunkSize N W) (N - s * chunkSize N W) := by
    rw [xChunk_eq, List.length_range']
  have hpos : 0 < (xChunk N W s).length := List.length_pos.mpr hne
  rw [hlen] at hpos
  have hmul : (r + 1) * chunkSize N W ≤ s * chunkSize N W :=
    Nat.mul_le_mul_right _ hrs
  have hh : (r + 1) * chunkSize N W = r * chunkSize N W + chunkSize N W := by ring
  rw [xChunk_eq, List.length_range']
  omega

/-- C6: with `chunk_size = ceil(N / W)` (line 93), the per-worker slices
`np.arange(N)[r * chunk_size : (r + 1) * chunk_size]` (line 94) are exactly
the contiguous intervals `[r * cs, min((r + 1) * cs, N))`; they are pairwise
disjoint; concatenated in rank order (as `np.concatenate` does at line 181)
they cover `[0, N)` exactly once, in strictly increasing order of global
observation index; and every chunk preceding a nonempty chunk has full length
`chunk_size`, so only the last nonempty chunk can be shorter. -/
theorem xchunk_partition (N W : ℕ) (_hN : 1 ≤ N) (hW : 1 ≤ W) :
    (∀ r x, x ∈ xChunk N W r ↔
        r * chunkSize N W ≤ x ∧ x < min ((r + 1) * chunkSize N W) N) ∧
      (∀ r s x, r < s → x ∈ xChunk N W r → x ∈ xChunk N W s → False) ∧
      ((List.range W).map (xChunk N W)).flatten = List.range N ∧
      List.Pairwise (· < ·) (((List.range W).map (xChunk N W)).flatten) ∧
      (∀ r s, r < s → xChunk N W s ≠ [] → (xChunk N W r).length = chunkSize N W) := by
  have hcov := xChunk_cover N W hW
  refine ⟨fun r x => xChunk_mem N W r x, ?_, hcov, ?_, ?_⟩
  · intro r s x hrs hr hs
    rw [xChunk_mem] at hr hs
    have hmul : (r + 1) * chunkSize N W ≤ s * chunkSize N W :=
      Nat.mul_le_mul_right _ hrs
    omega
  · rw [hcov]
    exact List.pairwise_lt_range N
  · exact fun r s hrs hne => xChunk_full_before_last N W r s hrs hne

theorem xchunk_partition_witness :
    (1 ≤ 5 ∧ 1 ≤ 2) ∧ ((List.range 2).map (xChunk 5 2)).flatten = List.range 5 :=
  ⟨⟨by decide, by decide⟩, (xchunk_partition 5 2 (by decide) (by decide)).2.2.1⟩

-- ---------------------------------------------------------------------------
-- Significance pipeline
-- ---------------------------------------------------------------------------

theorem pValuesAll_eq (ref : ℚ → ℚ) (inp : SigInput) (N F W : ℕ) (hW : 0 < W) :
    pValuesAll ref inp N F W = (List.range N).map (pValueRow ref inp F) := by
  unfold pValuesAll localPValues
  calc ((List.range W).map (fun r => (xChunk N W r).map (pValueRow ref inp F))).flatten
      = (((List.range W).map (xChunk N W)).map (List.map (pValueRow ref inp F))).flatten := by
        rw [List.map_map]
        rfl
    _ = (((List.range W).map (xChunk N W)).flatten).map (pValueRow ref inp F) :=
        (List.map_flatten _ _).symm
    _ = (List.range N).map (pValueRow ref inp F) := by rw [xChunk_cover N W hW]

/-- C3: the q-value computation (lines 184-188) loops over the rows of the
gathered p-value matrix and applies the multiple-testing correction to one
row at a time, so row `i` of the q-value matrix is the correction applied to
row `i` of the p-value matrix — a function only of observation `i`'s p-values
(and of the method and alpha baked into `correction`), never pooled across
observations.  `multitesting_correction` itself lives in
`regression_utils.py` (not under `src/`), so the statement quantifies over an
arbitrary correction function. -/
theorem qvalues_rowwise (correction : List ℚ → List ℚ) (ref : ℚ → ℚ) (inp : SigInput)
    (N F W i : ℕ) (hW : 0 < W) (hi : i < N) :
    (qValues correction (pValuesAll ref inp N F W))[i]? =
      some (correction (pValueRow ref inp F i)) := by
  rw [qValues, pValuesAll_eq ref inp N F W hW, List.map_map, List.getElem?_map,
    List.getElem?_range hi]
  rfl

theorem qvalues_rowwise_witness :
    (0 < 1 ∧ 1 < 2) ∧
      (qValues id (pValuesAll id sigInputEx 2 2 1))[1]? =
        some (id (pValueRow id sigInputEx 2 1)) :=
  ⟨⟨by decide, by decide⟩, qvalues_rowwise id id sigInputEx 2 2 1 1 (by decide) (by decide)⟩

/-- C4: entry `(i, j)` of the gathered p-value matrix (lines 163-175) is `1`
whenever the standard error is zero, and otherwise the value of the Wald test
on the statistic `coef[i,j] / se[i,j]` under the reference distribution
(`wald_test` is modelled from the spec, see its docstring), provided feature
`j` has a matching `se_` column. -/
theorem pvalue_entry (ref : ℚ → ℚ) (inp : SigInput) (N F W i j : ℕ)
    (hW : 0 < W) (hi : i < N) (hj : j < F) (hse : inp.hasSE j = true) :
    entry? (pValuesAll ref inp N F W) i j =
      some (if inp.se i j = 0 then 1 else ref (inp.coef i j / inp.se i j)) := by
  rw [entry?, pValuesAll_eq ref inp N F W hW, List.getElem?_map, List.getElem?_range hi]
  show (pValueRow ref inp F i)[j]? = _
  rw [pValueRow, List.getElem?_map, List.getElem?_range hj]
  simp [pValue, hse, wald_test]

theorem pvalue_entry_witness :
    (0 < 1 ∧ 0 < 2 ∧ 1 < 2 ∧ sigInputEx.hasSE 1 = true) ∧
      entry? (pValuesAll id sigInputEx 2 2 1) 0 1 =
        some (if sigInputEx.se 0 1 = 0 then 1 else id (sigInputEx.coef 0 1 / sigInputEx.se 0 1)) :=
  ⟨⟨by decide, by decide, by decide, rfl⟩,
    pvalue_entry id sigInputEx 2 2 1 0 1 (by decide) (by decide) (by decide) rfl⟩

/-- C5: `is_significant_df = q_values_df < significance_threshold` (line 192)
is the strict elementwise comparison: entry `(i, j)` is `true` exactly when
the q-value there is strictly below alpha, so a q-value exactly equal to
alpha is not marked significant. -/
theorem is_significant_strict (alpha : ℚ) (qm : List (List ℚ)) (i j : ℕ) (q : ℚ)
    (hq : entry? qm i j = some q) :
    (entry? (isSignificantMat alpha qm) i j = some true ↔ q < alpha) ∧
      (q = alpha → entry? (isSignificantMat alpha qm) i j = some false) := by
  cases h1 : qm[i]? with
  | none => rw [entry?, h1] at hq; simp at hq
  | some row =>
    rw [entry?, h1] at hq
    simp only [Option.some_bind] at hq
    have h3 : entry? (isSignificantMat alpha qm) i j = some (decide (q < alpha)) := by
      rw [entry?, isSignificantMat, List.getElem?_map, h1]
      simp [List.getElem?_map, hq]
    constructor
    · rw [h3]
      simp
    · intro he
      rw [h3, he]
      simp

theorem is_significant_strict_witness :
    (entry? [[(1 : ℚ) / 2]] 0 0 = some ((1 : ℚ) / 2)) ∧
      ((entry? (isSignificantMat ((1 : ℚ) / 2) [[(1 : ℚ) / 2]]) 0 0 = some true ↔
          (1 : ℚ) / 2 < (1 : ℚ) / 2) ∧
        ((1 : ℚ) / 2 = (1 : ℚ) / 2 →
          entry? (isSignificantMat ((1 : ℚ) / 2) [[(1 : ℚ) / 2]]) 0 0 = some false)) :=
  ⟨rfl, is_significant_strict ((1 : ℚ) / 2) [[(1 : ℚ) / 2]] 0 0 ((1 : ℚ) / 2) rfl⟩

-- ---------------------------------------------------------------------------
-- Pathway potential and effect direction guard
-- ---------------------------------------------------------------------------

/-- C2 counterexample: a `ligand` model whose downstream pathway has only two
member interactions in the database (and so at most two constituent ligands);
`get_pathway_potential` nevertheless computes and returns a result instead of
raising, because the `< 3` check (lines 1258-1263) exists only in the
`mod_type == "lr"` branch and the `"ligand"` branch (lines 1279-1294)
performs no such check. -/
theorem pathway_ligand_no_min_check :
    (ligandModelEx.lr_db.filter (fun r => r.lrPathway = strP)).length = 2 ∧
      (allSenders ligandModelEx strP).length = 2 ∧
      Except.isOk (get_pathway_potential ligandModelEx none none) = true := by
  refine ⟨rfl, rfl, ?_⟩
  rfl

/-- C2 (amended): only for `mod_type == "lr"` does `get_pathway_potential`
raise a ValueError when fewer than three constituent ligand-receptor
combinations of the named pathway are present among the design-matrix
columns (lines 1258-1263), returning before any effect-potential
computation; the `"ligand"` branch performs no minimum-size check (see the
counterexample above). -/
theorem pathway_min3_lr_only {n : ℕ} (m : PathwayModel n) (pw : String)
    (hmt : m.mod_type = "lr") (hpd : m.pathway_for_downstream = some pw)
    (hlt : (validLRCombos m.design_matrix_cols (allReceivers m pw)).length < 3) :
    get_pathway_potential m none none = .error (lrMin3Msg pw) := by
  rw [get_pathway_potential, hpd]
  simp [hmt, hlt]

theorem pathway_min3_lr_only_witness :
    (lrModelEx.mod_type = "lr" ∧ lrModelEx.pathway_for_downstream = some strP ∧
      (validLRCombos lrModelEx.design_matrix_cols (allReceivers lrModelEx strP)).length < 3) ∧
      get_pathway_potential lrModelEx none none = .error (lrMin3Msg strP) := by
  have hlt : (validLRCombos lrModelEx.design_matrix_cols (allReceivers lrModelEx strP)).length < 3 := by
    have h := List.length_filter_le
      (fun col => match (col.splitOn colonStr)[1]? with
        | some p => (allReceivers lrModelEx strP).contains p
        | none => false) lrModelEx.design_matrix_cols
    rw [validLRCombos, List.length_map]
    have h2 : lrModelEx.design_matrix_cols.length = 2 := rfl
    omega
  exact ⟨⟨rfl, rfl, hlt⟩, pathway_min3_lr_only lrModelEx strP rfl rfl hlt⟩

/-- C10: a `get_pathway_potential` call with an explicitly provided `pathway`
argument falls into the `else` of `if pathway is None and
self.pathway_for_downstream is not None` (lines 1236-1239) and raises
ValueError before any computation; and the `target` resolution
(lines 1230-1234) discards any explicitly provided `target`, replacing it by
the first key of `self.coeffs` (using `target_for_downstream` only when the
`target` argument is `None`). -/
theorem pathway_explicit_args_discarded {n : ℕ} (m : PathwayModel n) (p s : String)
    (t : Option String) (hmod : m.mod_type = "lr" ∨ m.mod_type = "ligand") :
    get_pathway_potential m (some p) t = .error mustProvidePathwayMsg ∧
      resolveTarget m (some s) = m.coeffs_keys.headD emptyStr ∧
      (∀ td, m.target_for_downstream = some td → resolveTarget m none = td) ∧
      (m.target_for_downstream = none →
        resolveTarget m none = m.coeffs_keys.headD emptyStr) := by
  refine ⟨?_, rfl, ?_, ?_⟩
  · rcases hmod with h | h <;> simp [get_pathway_potential, h]
  · intro td h
    simp [resolveTarget, h]
  · intro h
    simp [resolveTarget, h]

theorem pathway_explicit_args_discarded_witness :
    (ligandModelEx.mod_type = "lr" ∨ ligandModelEx.mod_type = "ligand") ∧
      (get_pathway_potential ligandModelEx (some strP) (some strX) =
          .error mustProvidePathwayMsg ∧
        resolveTarget ligandModelEx (some strX) = ligandModelEx.coeffs_keys.headD emptyStr ∧
        (∀ td, ligandModelEx.target_for_downstream = some td →
          resolveTarget ligandModelEx none = td) ∧
        (ligandModelEx.target_for_downstream = none →
          resolveTarget ligandModelEx none = ligandModelEx.coeffs_keys.headD emptyStr)) :=
  ⟨Or.inr rfl,
    pathway_explicit_args_discarded ligandModelEx strP strX (some strX) (Or.inr rfl)⟩

/-- C9: the entry guard of `inferred_effect_direction`,
`if not self.mod_type == "ligand" or self.mod_type == "lr"` (lines
1351-1354), parses as `(not (mod_type == "ligand")) or (mod_type == "lr")`,
so it raises ValueError for every `mod_type` other than exactly `"ligand"` —
including `"lr"` — before the spatial weights are loaded or any vector field
is computed, and only `mod_type == "ligand"` proceeds to the rest of the
function. -/
theorem inferred_effect_direction_guard {α : Type} (mt : String) (rest : Unit → α)
    (h : mt ≠ strLigand) :
    inferred_effect_direction mt rest = .error directionMsg ∧
      inferred_effect_direction strLigand rest = .ok (rest ()) := by
  constructor
  · have hc : (¬ mt = "ligand" ∨ mt = "lr") := Or.inl h
    rw [inferred_effect_direction, if_pos hc]
  · have hc : ¬ (¬ strLigand = "ligand" ∨ strLigand = "lr") := by decide
    rw [inferred_effect_direction, if_neg hc]

theorem inferred_effect_direction_guard_witness :
    (strLR ≠ strLigand) ∧
      (inferred_effect_direction strLR (fun _ => (0 : ℕ)) = .error directionMsg ∧
        inferred_effect_direction strLigand (fun _ => (0 : ℕ)) = .ok ((fun _ => (0 : ℕ)) ())) :=
  ⟨by decide, inferred_effect_direction_guard strLR (fun _ => (0 : ℕ)) (by decide)⟩

-- ---------------------------------------------------------------------------
-- Effect potential suppression and vector field properties
-- ---------------------------------------------------------------------------

/-- C7: entry `(i, j)` of the effect-potential matrix is zero whenever the
fitted coefficient for the selected interaction at receiver `j` has absolute
value below `1e-2` (such coefficients are zeroed at line 1015 before the
column is extracted) or the target gene's expression at receiver `j` is zero
(the final multiplication by the binary indicator, lines 1085-1086). -/
theorem effect_potential_suppressed {n : ℕ} (inp : EffectInput n) (i j : Fin (n + 1))
    (h : |inp.coeff j| < 1 / 100 ∨ inp.targetExpr j = 0) :
    effect_potential inp i j = 0 := by
  rcases h with h | h
  · have hz : thresholdCoeff (inp.coeff j) = 0 := by
      simp only [thresholdCoeff]
      rw [if_pos h]
    simp only [effect_potential]
    rw [hz, mul_zero, zero_mul]
  · have hz : targetIndicator (inp.targetExpr j) = 0 := by
      simp only [targetIndicator]
      rw [if_neg (by simp [h])]
    simp only [effect_potential]
    rw [hz, mul_zero]

theorem effect_potential_suppressed_witness :
    (|zeroTargetInput.coeff 0| < 1 / 100 ∨ zeroTargetInput.targetExpr 0 = 0) ∧
      effect_potential zeroTargetInput 0 0 = 0 :=
  ⟨Or.inr rfl, effect_potential_suppressed zeroTargetInput 0 0 (Or.inr rfl)⟩

theorem abs_npClip_le (m x : ℚ) (hm : 0 ≤ m) : |npClip (-m) m x| ≤ |x| := by
  unfold npClip
  rcases le_total x (-m) with h1 | h1
  · rw [max_eq_right h1, min_eq_left (by linarith : -m ≤ m), abs_neg, abs_of_nonneg hm]
    calc m ≤ -x := by linarith
      _ ≤ |x| := neg_le_abs x
  · rcases le_total x m with h2 | h2
    · rw [max_eq_left h1, min_eq_left h2]
    · rw [max_eq_left (by linarith : -m ≤ x), min_eq_right h2, abs_of_nonneg hm]
      calc m ≤ x := h2
        _ ≤ |x| := le_abs_self x

theorem forall2_abs_map (f : ℚ → ℚ) (h : ∀ x, |f x| ≤ |x|) :
    ∀ l : List ℚ, List.Forall₂ (fun a b => |b| ≤ |a|) l (l.map f)
  | [] => List.Forall₂.nil
  | x :: xs => List.Forall₂.cons (h x) (forall2_abs_map f h xs)

/-- C8: in `define_effect_vf` (lines 1536-1583), a cell whose row (resp.
column) of the effect-potential matrix has no stored nonzero entries is
skipped by `continue`, so its vector-field row stays the `np.zeros_like`
initialization and, after clipping with a nonnegative `max_val` (the default
is `0.05`, and the only call site uses it), remains the zero vector with no
error raised; and the final `np.clip(vf, -max_val, max_val)` never increases
the magnitude of any component of any row. -/
theorem effect_vf_zero_row_and_clip (l2row : List ℚ → List ℚ) (coords : ℕ → List ℚ)
    (d k i : ℕ) (score maxVal : ℚ) (hm : 0 ≤ maxVal) (row : List (ℕ × ℚ)) :
    vfRowClipped l2row coords d k i [] score maxVal = List.replicate d 0 ∧
      List.Forall₂ (fun a b => |b| ≤ |a|) (vfRow l2row coords d k i row score)
        (vfRowClipped l2row coords d k i row score maxVal) := by
  constructor
  · have h0 : vfRow l2row coords d k i [] score = List.replicate d 0 := by
      simp [vfRow, selectNeighbors]
    rw [vfRowClipped, h0, List.map_replicate]
    have hc : npClip (-maxVal) maxVal 0 = 0 := by
      unfold npClip
      rw [max_eq_left (by linarith : -maxVal ≤ 0), min_eq_left hm]
    rw [hc]
  · exact forall2_abs_map _ (fun x => abs_npClip_le maxVal x hm) _

theorem effect_vf_zero_row_and_clip_witness :
    (0 : ℚ) ≤ 1 / 20 ∧
      (vfRowClipped id (fun _ => [1, 1]) 2 1 0 [] 1 (1 / 20) = List.replicate 2 0 ∧
        List.Forall₂ (fun a b => |b| ≤ |a|) (vfRow id (fun _ => [1, 1]) 2 1 0 [(1, 2)] 1)
          (vfRowClipped id (fun _ => [1, 1]) 2 1 0 [(1, 2)] 1 (1 / 20))) :=
  ⟨by norm_num, effect_vf_zero_row_and_clip id (fun _ => [1, 1]) 2 1 0 1 (1 / 20)
    (by norm_num) [(1, 2)]⟩
